import Mathlib

/-!
Verification of the Agent Zero <-> Discord bridge (`bot_bridge.py`).

Text is modelled as `List Char` (Python `str` as a sequence of characters).
The chunker `split_message` is embedded with explicit fuel, since the Python
`while` loop is not structurally recursive; `none` models non-termination.
-/

set_option autoImplicit false
set_option linter.unusedVariables false

abbrev Text := List Char

/-- Python `str.lower()` (ASCII case folding suffices for the texts involved). -/
def lowerText (t : Text) : Text := t.map Char.toLower

/-- Python whitespace characters recognised by `str.strip()`. -/
def isPySpace (c : Char) : Bool :=
  c = ' ' || c = '\t' || c = '\n' || c = '\r' || c = '\x0b' || c = '\x0c'

/-- Python `str.strip()`: remove leading and trailing whitespace. -/
def stripText (t : Text) : Text :=
  ((t.dropWhile isPySpace).reverse.dropWhile isPySpace).reverse

/-- Python `text.rfind(c, 0, len(text))` restricted to a single character:
index of the last occurrence of `c` in the list, `none` for Python's `-1`. -/
def rfindChar (c : Char) : Text → Option Nat
  | [] => none
  | x :: xs =>
    match rfindChar c xs with
    | some i => some (i + 1)
    | none => if x = c then some 0 else none

/-- The cut position chosen by one iteration of the loop in `split_message`
(lines 114-121): last newline in the first `limit` characters, else last
space there, else exactly `limit` (hard split). -/
def findSplitPos (text : Text) (limit : Nat) : Nat :=
  match rfindChar '\n' (text.take limit) with
  | some p => p
  | none =>
    match rfindChar ' ' (text.take limit) with
    | some p => p
    | none => limit

/-- One iteration of the loop body (lines 123-124): emit `text[:split_pos]`
and continue with `text[split_pos:].lstrip("\n")`. -/
def splitStep (text : Text) (limit : Nat) : Text × Text :=
  let p := findSplitPos text limit
  (text.take p, (text.drop p).dropWhile (fun c => c = '\n'))

/-- The `while text:` loop of `split_message` (lines 109-124), with fuel.
`none` models a run that does not finish within `fuel` iterations. -/
def splitLoop (fuel : Nat) (text : Text) (limit : Nat) : Option (List Text) :=
  match fuel with
  | 0 => none
  | fuel + 1 =>
    if text = [] then some []
    else if text.length ≤ limit then some [text]
    else
      match splitLoop fuel (splitStep text limit).2 limit with
      | some rest => some ((splitStep text limit).1 :: rest)
      | none => none

/-- `split_message(text, limit)` (lines 103-126). A terminating run of the
Python loop strictly shrinks the remainder every iteration (otherwise the
deterministic loop body repeats forever), so `length + 1` iterations of fuel
are enough for every terminating run; `none` models non-termination. -/
def split_message (text : Text) (limit : Nat) : Option (List Text) :=
  if text.length ≤ limit then some [text]
  else splitLoop (text.length + 1) text limit

example : split_message ("hello").data 2000 = some [("hello").data] := by decide

example : split_message ("aaaa bb").data 4 = some [("aaaa").data, (" bb").data] := by
  decide

example : split_message ("ab\ncd\nef").data 4 = some [("ab").data, ("cd").data, ("ef").data] := by
  decide

/-- Interleaving concatenation: each chunk is followed by its separator
(the run of newline characters stripped at the corresponding cut). -/
def joinChunks : List Text → List Text → Text
  | [], _ => []
  | c :: cs, [] => c ++ joinChunks cs []
  | c :: cs, s :: ss => c ++ (s ++ joinChunks cs ss)

theorem rfindChar_lt_length {c : Char} :
    ∀ {l : Text} {p : Nat}, rfindChar c l = some p → p < l.length := by
  intro l
  induction l with
  | nil => intro p h; simp [rfindChar] at h
  | cons x xs ih =>
    intro p h
    simp only [rfindChar] at h
    split at h
    · next i hi =>
      injection h with h
      subst h
      have := ih hi
      simp only [List.length_cons]
      omega
    · split at h
      · injection h with h
        subst h
        simp
      · exact absurd h (by simp)

theorem findSplitPos_le (text : Text) (limit : Nat) : findSplitPos text limit ≤ limit := by
  unfold findSplitPos
  split
  · next p h =>
    have h1 := rfindChar_lt_length h
    rw [List.length_take] at h1
    omega
  · split
    · next p h =>
      have h1 := rfindChar_lt_length h
      rw [List.length_take] at h1
      omega
    · exact Nat.le_refl _

theorem splitLoop_length_le :
    ∀ (fuel : Nat) (text : Text) (limit : Nat) (chunks : List Text),
      splitLoop fuel text limit = some chunks → ∀ c ∈ chunks, c.length ≤ limit := by
  intro fuel
  induction fuel with
  | zero => intro text limit chunks h; simp [splitLoop] at h
  | succ fuel ih =>
    intro text limit chunks h c hc
    simp only [splitLoop] at h
    split at h
    · injection h with h
      subst h
      simp at hc
    · split at h
      · next hle =>
        injection h with h
        subst h
        simp at hc
        subst hc
        exact hle
      · split at h
        · next rest hrec =>
          injection h with h
          subst h
          rcases List.mem_cons.mp hc with hc | hc
          · subst hc
            simp only [splitStep, List.length_take]
            have := findSplitPos_le text limit
            omega
          · exact ih _ _ _ hrec c hc
        · exact absurd h (by simp)

theorem mem_takeWhile_newline {l : Text} {c : Char}
    (h : c ∈ l.takeWhile (fun c => c = '\n')) : c = '\n' := by
  have := List.mem_takeWhile_imp h
  simpa using this

theorem splitLoop_reconstruct :
    ∀ (fuel : Nat) (text : Text) (limit : Nat) (chunks : List Text),
      splitLoop fuel text limit = some chunks →
      ∃ seps : List Text, seps.length = chunks.length ∧
        (∀ s ∈ seps, ∀ c ∈ s, c = '\n') ∧ joinChunks chunks seps = text := by
  intro fuel
  induction fuel with
  | zero => intro text limit chunks h; simp [splitLoop] at h
  | succ fuel ih =>
    intro text limit chunks h
    simp only [splitLoop] at h
    split at h
    · next hnil =>
      injection h with h
      subst h
      exact ⟨[], rfl, by simp, by simp [joinChunks, hnil]⟩
    · split at h
      · injection h with h
        subst h
        refine ⟨[[]], rfl, by simp, ?_⟩
        simp [joinChunks]
      · split at h
        · next rest hrec =>
          injection h with h
          subst h
          obtain ⟨seps, hlen, hnl, hjoin⟩ := ih _ _ _ hrec
          refine ⟨((text.drop (findSplitPos text limit)).takeWhile (fun c => c = '\n')) :: seps,
            by simp [hlen], ?_, ?_⟩
          · intro s hs c hc
            rcases List.mem_cons.mp hs with hs | hs
            · subst hs
              exact mem_takeWhile_newline hc
            · exact hnl s hs c hc
          · simp only [joinChunks]
            simp only [splitStep] at hjoin ⊢
            rw [hjoin]
            rw [List.takeWhile_append_dropWhile, List.take_append_drop]
        · exact absurd h (by simp)

/-- C1: for every text and every limit ≥ 1, every chunk in the list returned by
`split_message text limit` has length at most `limit`; with the default limit
2000 every outbound reply chunk is at most 2000 characters. -/
theorem C1_chunks_within_limit (text : Text) (limit : Nat) (chunks : List Text)
    (hlim : 1 ≤ limit) (h : split_message text limit = some chunks) :
    ∀ c ∈ chunks, c.length ≤ limit := by
  unfold split_message at h
  split at h
  · next hle =>
    injection h with h
    subst h
    intro c hc
    simp at hc
    subst hc
    exact hle
  · exact splitLoop_length_le _ _ _ _ h

theorem C1_witness :
    (1 ≤ 4) ∧ ∀ c ∈ [("aaaa").data, (" bb").data], c.length ≤ 4 :=
  ⟨by decide, C1_chunks_within_limit (("aaaa bb").data) 4 _ (by decide) (by decide)⟩

/-- C2: for every text and every limit ≥ 1, whenever `split_message` returns a
list of chunks, there are separator strings consisting solely of the newline
characters stripped at each cut such that interleaving chunks and separators
reconstructs the original text exactly. -/
theorem C2_lossless_reconstruction (text : Text) (limit : Nat) (chunks : List Text)
    (hlim : 1 ≤ limit) (h : split_message text limit = some chunks) :
    ∃ seps : List Text, seps.length = chunks.length ∧
      (∀ s ∈ seps, ∀ c ∈ s, c = '\n') ∧ joinChunks chunks seps = text := by
  unfold split_message at h
  split at h
  · injection h with h
    subst h
    refine ⟨[[]], rfl, by simp, ?_⟩
    simp [joinChunks]
  · exact splitLoop_reconstruct _ _ _ _ h

theorem C2_witness :
    ∃ seps : List Text, seps.length = [("ab").data, ("cd").data, ("ef").data].length ∧
      (∀ s ∈ seps, ∀ c ∈ s, c = '\n') ∧
      joinChunks [("ab").data, ("cd").data, ("ef").data] seps = ("ab\ncd\nef").data :=
  C2_lossless_reconstruction (("ab\ncd\nef").data) 4 _ (by decide) (by decide)

theorem splitLoop_none_of_fixpoint (text : Text) (limit : Nat)
    (hlen : limit < text.length) (hfix : (splitStep text limit).2 = text) :
    ∀ fuel, splitLoop fuel text limit = none := by
  intro fuel
  induction fuel with
  | zero => rfl
  | succ fuel ih =>
    have hne : text ≠ [] := by
      intro h
      rw [h] at hlen
      simp at hlen
    simp only [splitLoop]
    rw [if_neg hne, if_neg (by omega : ¬ text.length ≤ limit), hfix, ih]

/-- C3: the claim asserts `split_message` always terminates for limit ≥ 1
because the cut point is always ≥ 1. The code refutes this: on the text
consisting of a space followed by four letters with limit 3 (likewise a space
followed by 2000 non-space characters with the default limit 2000), the last
space in the window is at position 0, the cut point is 0, and
`text[0:].lstrip("\n")` leaves the remainder unchanged, so the loop never
terminates (it returns `none` for every amount of fuel). -/
theorem C3_split_message_diverges :
    (∀ fuel, splitLoop fuel ((" aaaa").data) 3 = none) ∧
    split_message ((" aaaa").data) 3 = none := by
  have h := splitLoop_none_of_fixpoint ((" aaaa").data) 3 (by decide) (by decide)
  refine ⟨h, ?_⟩
  unfold split_message
  rw [if_neg (by decide)]
  exact h _

/-- C4: the claim asserts `split_message` with limit ≤ 0 fails fast. The code
has no such check: with text "a" and limit 0 the cut point is 0, the remainder
never shrinks, and the loop runs forever instead of signalling an error
(`none` for every amount of fuel, never an error value). -/
theorem C4_limit_zero_loops_forever :
    (∀ fuel, splitLoop fuel (("a").data) 0 = none) ∧
    split_message (("a").data) 0 = none := by
  have h := splitLoop_none_of_fixpoint (("a").data) 0 (by decide) (by decide)
  refine ⟨h, ?_⟩
  unfold split_message
  rw [if_neg (by decide)]
  exact h _

/-- Bot configuration (lines 32-49): command prefix `CMD_PREFIX`, optional
channel allow-list `ALLOWED_CHANNEL_SET` (empty means respond everywhere),
timeout `A0_TIMEOUT` in seconds, and API URL `A0_API_URL`. -/
structure Config where
  cmdPfx : Text
  allowed : List Text
  timeout : Nat
  apiUrl : Text
  deriving DecidableEq

/-- An inbound chat message as seen by `on_message` (lines 176-189). -/
structure InMessage where
  authorIsSelf : Bool
  authorIsBot : Bool
  channelId : Text
  content : Text
  deriving DecidableEq

/-- The result of the awaited backend call `send_to_agent` as observed by
`on_message`: a parsed JSON dict (its `response` and `context_id` fields,
with the dict-`get` default of the empty string for a missing field), or one
of the exceptions caught at lines 248-264. -/
inductive BackendOutcome where
  | success (responseText : Text) (newContextId : Text)
  | timeout
  | connectionError (err : Text)
  | otherError (err : Text)
  deriving DecidableEq

/-- An outbound delivery: `message.reply(...)` or `message.channel.send(...)`. -/
inductive Send where
  | reply (content : Text)
  | channelSend (content : Text)
  deriving DecidableEq

/-- Observable effect of one `on_message` run: the `channel_contexts` mapping
afterwards, the deliveries performed in order, and whether `send_to_agent`
was invoked. -/
structure DispatchResult where
  store : List (Text × Text)
  sends : List Send
  backendCalled : Bool
  deriving DecidableEq

/-- Python dict lookup `channel_contexts.get(ch)` on the association list. -/
def ctxGet (store : List (Text × Text)) (ch : Text) : Option Text :=
  match store with
  | [] => none
  | (k, v) :: rest => if k = ch then some v else ctxGet rest ch

/-- Python dict assignment `channel_contexts[ch] = tok`. -/
def ctxSet : List (Text × Text) → Text → Text → List (Text × Text)
  | [], ch, tok => [(ch, tok)]
  | (k, v) :: rest, ch, tok =>
    if k = ch then (ch, tok) :: rest else (k, v) :: ctxSet rest ch tok

/-- Python `channel_contexts.pop(ch, None)` (line 193). -/
def ctxPop : List (Text × Text) → Text → List (Text × Text)
  | [], _ => []
  | (k, v) :: rest, ch => if k = ch then rest else (k, v) :: ctxPop rest ch

/-- Reply confirmation sent by the reset command (line 194). -/
def resetReplyText : Text := ("Conversation reset. Starting fresh.").data

/-- Sentinel used when the backend response text is empty (line 236). -/
def emptyResponseText : Text := ("(Agent returned an empty response)").data

/-- Absence marker shown by the status command (line 199). -/
def noContextText : Text := ("(none)").data

/-- Status reply (lines 200-205). -/
def statusReplyText (cfg : Config) (ctx : Text) : Text :=
  ("**Bot Status**\n- API: `").data ++ cfg.apiUrl ++
    ("`\n- Context: `").data ++ ctx ++ ("`\n- Timeout: ").data ++
    (toString cfg.timeout).data ++ ("s").data

/-- Help reply (lines 209-216). -/
def helpReplyText (cfg : Config) : Text :=
  ("**Agent Zero Bridge**\nSend any message to chat with Agent Zero.\n\n**Commands:**\n- `").data ++
    cfg.cmdPfx ++ ("reset` - Start a new conversation\n- `").data ++
    cfg.cmdPfx ++ ("status` - Show connection status\n- `").data ++
    cfg.cmdPfx ++ ("help` - Show this message").data

/-- Timeout reply (lines 250-253): tells the user the backend is slow and
suggests the reset command. -/
def timeoutReplyText (cfg : Config) : Text :=
  ("Agent Zero took too long to respond (timeout: ").data ++
    (toString cfg.timeout).data ++ ("s). Try again or use `").data ++
    cfg.cmdPfx ++ ("reset").data ++ ("` to start fresh.").data

/-- Connection-error reply (lines 257-260). -/
def connectErrorReplyText (cfg : Config) : Text :=
  ("Cannot connect to Agent Zero API. Is the server running?\nTarget: `").data ++
    cfg.apiUrl ++ ("`").data

/-- Catch-all error reply (line 264), error text truncated to 500 characters. -/
def genericErrorReplyText (err : Text) : Text :=
  ("Error: ").data ++ err.take 500

/-- The chunk delivery loop (lines 242-246): first chunk as a threaded reply,
remaining chunks as plain channel sends. -/
def chunkSends : List Text → List Send
  | [] => []
  | c :: cs => Send.reply c :: cs.map Send.channelSend

/-- Shallow embedding of `on_message` (lines 176-264). The awaited backend
call is abstracted by its `outcome`; `none` models a run that hangs inside
`split_message`. -/
def on_message (cfg : Config) (store : List (Text × Text)) (msg : InMessage)
    (outcome : BackendOutcome) : Option DispatchResult :=
  if msg.authorIsSelf || msg.authorIsBot then some ⟨store, [], false⟩
  else if cfg.allowed ≠ [] ∧ msg.channelId ∉ cfg.allowed then some ⟨store, [], false⟩
  else if stripText msg.content = [] then some ⟨store, [], false⟩
  else if lowerText (stripText msg.content) = cfg.cmdPfx ++ ("reset").data then
    some ⟨ctxPop store msg.channelId, [Send.reply resetReplyText], false⟩
  else if lowerText (stripText msg.content) = cfg.cmdPfx ++ ("status").data then
    some ⟨store,
      [Send.reply (statusReplyText cfg ((ctxGet store msg.channelId).getD noContextText))],
      false⟩
  else if lowerText (stripText msg.content) = cfg.cmdPfx ++ ("help").data then
    some ⟨store, [Send.reply (helpReplyText cfg)], false⟩
  else
    match outcome with
    | BackendOutcome.success responseText newContextId =>
      let newStore :=
        if newContextId = [] then store else ctxSet store msg.channelId newContextId
      let replyText := if responseText = [] then emptyResponseText else responseText
      match split_message replyText 2000 with
      | some chunks => some ⟨newStore, chunkSends chunks, true⟩
      | none => none
    | BackendOutcome.timeout => some ⟨store, [Send.reply (timeoutReplyText cfg)], true⟩
    | BackendOutcome.connectionError _ =>
      some ⟨store, [Send.reply (connectErrorReplyText cfg)], true⟩
    | BackendOutcome.otherError err =>
      some ⟨store, [Send.reply (genericErrorReplyText err)], true⟩

/-- Default configuration values from lines 35-46. -/
def defaultCfg : Config :=
  ⟨("!").data, [], 300, ("http://127.0.0.1:80/api_message").data⟩

example :
    on_message defaultCfg [] ⟨false, false, ("42").data, ("hello").data⟩
      (BackendOutcome.success ("hi").data ("ctx-1").data) =
      some ⟨[(("42").data, ("ctx-1").data)], [Send.reply ("hi").data], true⟩ := by
  decide

example :
    on_message defaultCfg [(("42").data, ("ctx-1").data)]
      ⟨false, false, ("42").data, (" !ReSET ").data⟩ BackendOutcome.timeout =
      some ⟨[], [Send.reply resetReplyText], false⟩ := by
  decide

example :
    on_message defaultCfg [] ⟨false, false, ("42").data, ("hello").data⟩
      BackendOutcome.timeout =
      some ⟨[], [Send.reply (timeoutReplyText defaultCfg)], true⟩ := by
  decide

theorem ctxGet_ctxSet_self (store : List (Text × Text)) (ch tok : Text) :
    ctxGet (ctxSet store ch tok) ch = some tok := by
  induction store with
  | nil => simp [ctxSet, ctxGet]
  | cons p rest ih =>
    obtain ⟨k, v⟩ := p
    by_cases hk : k = ch
    · simp [ctxSet, hk, ctxGet]
    · simp [ctxSet, hk, ctxGet, ih]

theorem ctxGet_eq_none_of_not_mem (store : List (Text × Text)) (ch : Text)
    (h : ch ∉ store.map Prod.fst) : ctxGet store ch = none := by
  induction store with
  | nil => rfl
  | cons p rest ih =>
    obtain ⟨k, v⟩ := p
    simp only [List.map_cons, List.mem_cons, not_or] at h
    obtain ⟨hk, hrest⟩ := h
    simp only [ctxGet]
    rw [if_neg (Ne.symm hk)]
    exact ih hrest

theorem ctxGet_ctxPop_self (store : List (Text × Text)) (ch : Text)
    (hnd : (store.map Prod.fst).Nodup) : ctxGet (ctxPop store ch) ch = none := by
  induction store with
  | nil => rfl
  | cons p rest ih =>
    obtain ⟨k, v⟩ := p
    simp only [List.map_cons, List.nodup_cons] at hnd
    obtain ⟨hk, hrest⟩ := hnd
    by_cases hkc : k = ch
    · subst hkc
      simp only [ctxPop, if_pos rfl]
      exact ctxGet_eq_none_of_not_mem rest k hk
    · simp only [ctxPop, if_neg hkc, ctxGet]
      exact ih hrest

theorem cmd_text_ne_nil {t pfx rest : Text} (hr : rest ≠ [])
    (h : lowerText t = pfx ++ rest) : t ≠ [] := by
  intro h0
  subst h0
  have h2 : pfx ++ rest = ([] : Text) := by
    rw [← h]
    rfl
  exact hr (List.append_eq_nil.mp h2).2

/-- After the three inbound filters pass (lines 178-187), `on_message`
proceeds to command interception and relay. -/
theorem on_message_eq_body (cfg : Config) (store : List (Text × Text))
    (msg : InMessage) (outcome : BackendOutcome)
    (h1 : msg.authorIsSelf = false) (h2 : msg.authorIsBot = false)
    (h3 : cfg.allowed = [] ∨ msg.channelId ∈ cfg.allowed)
    (h4 : stripText msg.content ≠ []) :
    on_message cfg store msg outcome =
      (if lowerText (stripText msg.content) = cfg.cmdPfx ++ ("reset").data then
        some ⟨ctxPop store msg.channelId, [Send.reply resetReplyText], false⟩
      else if lowerText (stripText msg.content) = cfg.cmdPfx ++ ("status").data then
        some ⟨store,
          [Send.reply (statusReplyText cfg ((ctxGet store msg.channelId).getD noContextText))],
          false⟩
      else if lowerText (stripText msg.content) = cfg.cmdPfx ++ ("help").data then
        some ⟨store, [Send.reply (helpReplyText cfg)], false⟩
      else
        match outcome with
        | BackendOutcome.success responseText newContextId =>
          match split_message (if responseText = [] then emptyResponseText else responseText) 2000 with
          | some chunks =>
            some ⟨(if newContextId = [] then store else ctxSet store msg.channelId newContextId),
              chunkSends chunks, true⟩
          | none => none
        | BackendOutcome.timeout => some ⟨store, [Send.reply (timeoutReplyText cfg)], true⟩
        | BackendOutcome.connectionError _ =>
          some ⟨store, [Send.reply (connectErrorReplyText cfg)], true⟩
        | BackendOutcome.otherError err =>
          some ⟨store, [Send.reply (genericErrorReplyText err)], true⟩) := by
  have g2 : ¬(cfg.allowed ≠ [] ∧ msg.channelId ∉ cfg.allowed) := by
    rcases h3 with h3 | h3
    · exact fun hh => hh.1 h3
    · exact fun hh => hh.2 h3
  unfold on_message
  rw [if_neg (by simp [h1, h2]), if_neg g2, if_neg h4]

/-- C5: when the backend call raises a timeout while handling a relayed
message, the dispatcher sends exactly one timeout-specific reply (which
contains the reset-command suggestion `prefix ++ "reset"`), and the stored
context for the channel — indeed the whole context map — is unchanged. -/
theorem C5_timeout_single_reply_context_unchanged (cfg : Config)
    (store : List (Text × Text)) (msg : InMessage)
    (h1 : msg.authorIsSelf = false) (h2 : msg.authorIsBot = false)
    (h3 : cfg.allowed = [] ∨ msg.channelId ∈ cfg.allowed)
    (h4 : stripText msg.content ≠ [])
    (h5 : lowerText (stripText msg.content) ≠ cfg.cmdPfx ++ ("reset").data)
    (h6 : lowerText (stripText msg.content) ≠ cfg.cmdPfx ++ ("status").data)
    (h7 : lowerText (stripText msg.content) ≠ cfg.cmdPfx ++ ("help").data) :
    on_message cfg store msg BackendOutcome.timeout =
      some ⟨store, [Send.reply (timeoutReplyText cfg)], true⟩ ∧
    List.IsInfix (cfg.cmdPfx ++ ("reset").data) (timeoutReplyText cfg) := by
  constructor
  · rw [on_message_eq_body cfg store msg BackendOutcome.timeout h1 h2 h3 h4]
    rw [if_neg h5, if_neg h6, if_neg h7]
  · refine ⟨("Agent Zero took too long to respond (timeout: ").data ++
      (toString cfg.timeout).data ++ ("s). Try again or use `").data,
      ("` to start fresh.").data, ?_⟩
    simp [timeoutReplyText, List.append_assoc]

theorem C5_witness :
    on_message defaultCfg [(("42").data, ("ctx-1").data)]
      ⟨false, false, ("42").data, ("hello").data⟩ BackendOutcome.timeout =
      some ⟨[(("42").data, ("ctx-1").data)],
        [Send.reply (timeoutReplyText defaultCfg)], true⟩ ∧
    List.IsInfix (defaultCfg.cmdPfx ++ ("reset").data) (timeoutReplyText defaultCfg) :=
  C5_timeout_single_reply_context_unchanged defaultCfg
    [(("42").data, ("ctx-1").data)] ⟨false, false, ("42").data, ("hello").data⟩
    (by decide) (by decide) (by decide) (by decide) (by decide) (by decide) (by decide)

/-- The context-store component of a completed relay with a successful
backend response (lines 229-232): the returned token is stored only when it
is non-empty. -/
theorem on_message_success_store (cfg : Config) (store : List (Text × Text))
    (msg : InMessage) (responseText newContextId : Text)
    (h1 : msg.authorIsSelf = false) (h2 : msg.authorIsBot = false)
    (h3 : cfg.allowed = [] ∨ msg.channelId ∈ cfg.allowed)
    (h4 : stripText msg.content ≠ [])
    (h5 : lowerText (stripText msg.content) ≠ cfg.cmdPfx ++ ("reset").data)
    (h6 : lowerText (stripText msg.content) ≠ cfg.cmdPfx ++ ("status").data)
    (h7 : lowerText (stripText msg.content) ≠ cfg.cmdPfx ++ ("help").data) :
    ∀ res, on_message cfg store msg (BackendOutcome.success responseText newContextId) = some res →
      res.store = (if newContextId = [] then store else ctxSet store msg.channelId newContextId) := by
  intro res h
  rw [on_message_eq_body cfg store msg _ h1 h2 h3 h4] at h
  rw [if_neg h5, if_neg h6, if_neg h7] at h
  have h' : (match split_message (if responseText = [] then emptyResponseText else responseText) 2000 with
    | some chunks =>
      some (⟨(if newContextId = [] then store else ctxSet store msg.channelId newContextId),
        chunkSends chunks, true⟩ : DispatchResult)
    | none => none) = some res := h
  clear h
  split at h'
  · injection h' with h'
    subst h'
    rfl
  · exact absurd h' (by simp)

/-- C6: storing an empty context token is a no-op. After a successful relay
stores the token "abc" for a channel, a further successful relay whose
response carries an empty `context_id` leaves the whole context map — and in
particular the channel's stored token — unchanged at "abc". -/
theorem C6_empty_token_is_noop (cfg : Config) (store : List (Text × Text))
    (msg : InMessage) (r1 r2 : Text) (res1 res2 : DispatchResult)
    (h1 : msg.authorIsSelf = false) (h2 : msg.authorIsBot = false)
    (h3 : cfg.allowed = [] ∨ msg.channelId ∈ cfg.allowed)
    (h4 : stripText msg.content ≠ [])
    (h5 : lowerText (stripText msg.content) ≠ cfg.cmdPfx ++ ("reset").data)
    (h6 : lowerText (stripText msg.content) ≠ cfg.cmdPfx ++ ("status").data)
    (h7 : lowerText (stripText msg.content) ≠ cfg.cmdPfx ++ ("help").data)
    (ha : on_message cfg store msg (BackendOutcome.success r1 (("abc").data)) = some res1)
    (hb : on_message cfg res1.store msg (BackendOutcome.success r2 []) = some res2) :
    res2.store = res1.store ∧ ctxGet res2.store msg.channelId = some (("abc").data) := by
  have e1 := on_message_success_store cfg store msg r1 (("abc").data)
    h1 h2 h3 h4 h5 h6 h7 res1 ha
  have e2 := on_message_success_store cfg res1.store msg r2 []
    h1 h2 h3 h4 h5 h6 h7 res2 hb
  rw [if_neg (by decide)] at e1
  rw [if_pos rfl] at e2
  refine ⟨e2, ?_⟩
  rw [e2, e1]
  exact ctxGet_ctxSet_self store msg.channelId (("abc").data)

theorem C6_witness :
    (⟨[(("42").data, ("abc").data)], [Send.reply ("ok").data], true⟩ : DispatchResult).store =
      (⟨[(("42").data, ("abc").data)], [Send.reply ("hi").data], true⟩ : DispatchResult).store ∧
    ctxGet (⟨[(("42").data, ("abc").data)], [Send.reply ("ok").data], true⟩ : DispatchResult).store
      (("42").data) = some (("abc").data) :=
  C6_empty_token_is_noop defaultCfg [] ⟨false, false, ("42").data, ("hello").data⟩
    (("hi").data) (("ok").data)
    ⟨[(("42").data, ("abc").data)], [Send.reply ("hi").data], true⟩
    ⟨[(("42").data, ("abc").data)], [Send.reply ("ok").data], true⟩
    (by decide) (by decide) (by decide) (by decide) (by decide) (by decide) (by decide)
    (by decide) (by decide)

/-- C7: a message whose trimmed text matches the reset command removes the
channel's stored context token (a subsequent lookup yields the absent
default), sends exactly the confirmation reply, and performs no backend call
(the result is the same for every backend outcome and `backendCalled` is
false). The store is a Python dict, so its keys are assumed distinct. -/
theorem C7_reset_clears_context (cfg : Config) (store : List (Text × Text))
    (msg : InMessage) (outcome : BackendOutcome)
    (h1 : msg.authorIsSelf = false) (h2 : msg.authorIsBot = false)
    (h3 : cfg.allowed = [] ∨ msg.channelId ∈ cfg.allowed)
    (hnd : (store.map Prod.fst).Nodup)
    (hcmd : lowerText (stripText msg.content) = cfg.cmdPfx ++ ("reset").data) :
    on_message cfg store msg outcome =
      some ⟨ctxPop store msg.channelId, [Send.reply resetReplyText], false⟩ ∧
    ctxGet (ctxPop store msg.channelId) msg.channelId = none := by
  have h4 : stripText msg.content ≠ [] := cmd_text_ne_nil (by decide) hcmd
  constructor
  · rw [on_message_eq_body cfg store msg outcome h1 h2 h3 h4]
    rw [if_pos hcmd]
  · exact ctxGet_ctxPop_self store msg.channelId hnd

theorem C7_witness :
    on_message defaultCfg [(("42").data, ("ctx-1").data)]
      ⟨false, false, ("42").data, ("!reset").data⟩ BackendOutcome.timeout =
      some ⟨ctxPop [(("42").data, ("ctx-1").data)] (("42").data),
        [Send.reply resetReplyText], false⟩ ∧
    ctxGet (ctxPop [(("42").data, ("ctx-1").data)] (("42").data)) (("42").data) = none :=
  C7_reset_clears_context defaultCfg [(("42").data, ("ctx-1").data)]
    ⟨false, false, ("42").data, ("!reset").data⟩ BackendOutcome.timeout
    (by decide) (by decide) (by decide) (by decide) (by decide)

/-- C8 counterexample: with configured prefix "A", the trimmed text "Areset"
is a case-insensitive exact match of prefix ++ "reset" (both lowercase to
"areset"), yet the dispatcher does not intercept it: the message passes
through to the relay (`backendCalled` is true), because the code compares the
lowercased text against the prefix taken literally (not lowercased). -/
theorem C8_counterexample :
    lowerText (stripText ("Areset").data) =
      lowerText ((("A").data) ++ ("reset").data) ∧
    on_message ⟨("A").data, [], 300, ("u").data⟩ []
      ⟨false, false, ("42").data, ("Areset").data⟩
      (BackendOutcome.success ("hi").data ("c").data) =
      some ⟨[(("42").data, ("c").data)], [Send.reply ("hi").data], true⟩ := by
  decide

/-- The exact interception condition implemented at lines 192-217: the
lowercased trimmed text equals the literal (case-sensitive) prefix followed
by "reset", "status" or "help". -/
def isCmdText (cfg : Config) (t : Text) : Bool :=
  (lowerText t == cfg.cmdPfx ++ ("reset").data) ||
  (lowerText t == cfg.cmdPfx ++ ("status").data) ||
  (lowerText t == cfg.cmdPfx ++ ("help").data)

/-- C8 amended: for every configured prefix and every input surviving the
filters, the dispatcher intercepts a command (no backend relay) exactly when
the lowercased trimmed text equals the literal prefix followed by one of
"reset", "status", "help"; matching is case-insensitive on the message side
only, so a prefix containing uppercase characters never matches. All other
text passes through to the relay. -/
theorem C8_amended_intercept_iff (cfg : Config) (store : List (Text × Text))
    (msg : InMessage) (outcome : BackendOutcome)
    (h1 : msg.authorIsSelf = false) (h2 : msg.authorIsBot = false)
    (h3 : cfg.allowed = [] ∨ msg.channelId ∈ cfg.allowed)
    (h4 : stripText msg.content ≠ []) :
    ∀ res, on_message cfg store msg outcome = some res →
      (res.backendCalled = false ↔ isCmdText cfg (stripText msg.content) = true) := by
  intro res h
  rw [on_message_eq_body cfg store msg outcome h1 h2 h3 h4] at h
  by_cases hr : lowerText (stripText msg.content) = cfg.cmdPfx ++ ("reset").data
  · rw [if_pos hr] at h
    injection h with h
    subst h
    simp [isCmdText, hr]
  · rw [if_neg hr] at h
    by_cases hs : lowerText (stripText msg.content) = cfg.cmdPfx ++ ("status").data
    · rw [if_pos hs] at h
      injection h with h
      subst h
      simp [isCmdText, hs]
    · rw [if_neg hs] at h
      by_cases hh : lowerText (stripText msg.content) = cfg.cmdPfx ++ ("help").data
      · rw [if_pos hh] at h
        injection h with h
        subst h
        simp [isCmdText, hh]
      · rw [if_neg hh] at h
        cases outcome with
        | success responseText newContextId =>
          have h' : (match split_message (if responseText = [] then emptyResponseText else responseText) 2000 with
            | some chunks =>
              some (⟨(if newContextId = [] then store else ctxSet store msg.channelId newContextId),
                chunkSends chunks, true⟩ : DispatchResult)
            | none => none) = some res := h
          clear h
          split at h'
          · injection h' with h'
            subst h'
            simp [isCmdText, hr, hs, hh]
          · exact absurd h' (by simp)
        | timeout =>
          injection h with h
          subst h
          simp [isCmdText, hr, hs, hh]
        | connectionError err =>
          injection h with h
          subst h
          simp [isCmdText, hr, hs, hh]
        | otherError err =>
          injection h with h
          subst h
          simp [isCmdText, hr, hs, hh]

theorem C8_witness :
    (⟨[], [Send.reply (statusReplyText defaultCfg noContextText)], false⟩ : DispatchResult).backendCalled = false ↔
      isCmdText defaultCfg (stripText ("!status").data) = true :=
  C8_amended_intercept_iff defaultCfg [] ⟨false, false, ("42").data, ("!status").data⟩
    BackendOutcome.timeout (by decide) (by decide) (by decide) (by decide)
    ⟨[], [Send.reply (statusReplyText defaultCfg noContextText)], false⟩ (by decide)

theorem rfindChar_replicate {c a : Char} (h : ¬ a = c) :
    ∀ n, rfindChar c (List.replicate n a) = none := by
  intro n
  induction n with
  | zero => rfl
  | succ n ih =>
    rw [List.replicate_succ]
    simp [rfindChar, ih, h]

theorem dropWhile_replicate {p : Char → Bool} {a : Char} (h : p a = false) :
    ∀ n, (List.replicate n a).dropWhile p = List.replicate n a := by
  intro n
  cases n with
  | zero => rfl
  | succ n =>
    rw [List.replicate_succ, List.dropWhile_cons, h]
    simp [List.replicate_succ]

theorem splitLoop_succ_step (fuel : Nat) (text : Text) (limit : Nat)
    (h1 : text ≠ []) (h2 : ¬ text.length ≤ limit) :
    splitLoop (fuel + 1) text limit =
      match splitLoop fuel (splitStep text limit).2 limit with
      | some rest => some ((splitStep text limit).1 :: rest)
      | none => none := by
  simp only [splitLoop]
  rw [if_neg h1, if_neg h2]

theorem splitLoop_succ_done (fuel : Nat) (text : Text) (limit : Nat)
    (h1 : text ≠ []) (h2 : text.length ≤ limit) :
    splitLoop (fuel + 1) text limit = some [text] := by
  simp only [splitLoop]
  rw [if_neg h1, if_pos h2]

theorem c9_step_gen (m : Nat) :
    splitStep (('\n') :: List.replicate (m + 1) 'a') (m + 1) =
      ([], List.replicate (m + 1) 'a') := by
  have htake : (('\n') :: List.replicate (m + 1) 'a').take (m + 1) =
      ('\n') :: List.replicate m 'a' := by
    rw [List.take_succ_cons, List.take_replicate, min_eq_left (by omega)]
  have h1 : rfindChar '\n' (List.replicate m 'a') = none :=
    rfindChar_replicate (by decide) m
  have h2 : rfindChar '\n' (('\n') :: List.replicate m 'a') = some 0 := by
    simp [rfindChar, h1]
  have hpos : findSplitPos (('\n') :: List.replicate (m + 1) 'a') (m + 1) = 0 := by
    unfold findSplitPos
    rw [htake, h2]
  simp only [splitStep]
  rw [hpos]
  simp only [List.take_zero, List.drop_zero]
  rw [List.dropWhile_cons, if_pos (show ((fun c => (c = '\n' : Bool)) '\n') = true from by decide)]
  rw [@dropWhile_replicate (fun c => (c = '\n' : Bool)) 'a' (by decide) (m + 1)]

theorem c9_split_gen (m : Nat) :
    split_message (('\n') :: List.replicate (m + 1) 'a') (m + 1) =
      some [[], List.replicate (m + 1) 'a'] := by
  have hlen : (('\n') :: List.replicate (m + 1) 'a').length = m + 2 := by
    simp only [List.length_cons, List.length_replicate]
  have hs1 : (splitStep (('\n') :: List.replicate (m + 1) 'a') (m + 1)).1 = [] := by
    rw [c9_step_gen]
  have hs2 : (splitStep (('\n') :: List.replicate (m + 1) 'a') (m + 1)).2 =
      List.replicate (m + 1) 'a' := by
    rw [c9_step_gen]
  have hne : ('\n') :: List.replicate (m + 1) 'a' ≠ ([] : Text) := List.cons_ne_nil _ _
  have hrne : List.replicate (m + 1) 'a' ≠ ([] : Text) := by
    intro hh
    have := congrArg List.length hh
    simp only [List.length_replicate, List.length_nil] at this
    omega
  unfold split_message
  rw [hlen, if_neg (by omega)]
  rw [splitLoop_succ_step (m + 2) _ (m + 1) hne (by rw [hlen]; omega)]
  rw [hs1, hs2]
  rw [splitLoop_succ_done (m + 1) (List.replicate (m + 1) 'a') (m + 1) hrne
    (by simp only [List.length_replicate]; omega)]

theorem c9_split :
    split_message (('\n') :: List.replicate 2000 'a') 2000 =
      some [[], List.replicate 2000 'a'] := c9_split_gen 1999

/-- The relay branch of `on_message` when the backend succeeds and the
chunker terminates (lines 227-246). -/
theorem on_message_success_eq (cfg : Config) (store : List (Text × Text))
    (msg : InMessage) (responseText newContextId : Text) (chunks : List Text)
    (h1 : msg.authorIsSelf = false) (h2 : msg.authorIsBot = false)
    (h3 : cfg.allowed = [] ∨ msg.channelId ∈ cfg.allowed)
    (h4 : stripText msg.content ≠ [])
    (h5 : lowerText (stripText msg.content) ≠ cfg.cmdPfx ++ ("reset").data)
    (h6 : lowerText (stripText msg.content) ≠ cfg.cmdPfx ++ ("status").data)
    (h7 : lowerText (stripText msg.content) ≠ cfg.cmdPfx ++ ("help").data)
    (hne : responseText ≠ [])
    (hsp : split_message responseText 2000 = some chunks) :
    on_message cfg store msg (BackendOutcome.success responseText newContextId) =
      some ⟨(if newContextId = [] then store else ctxSet store msg.channelId newContextId),
        chunkSends chunks, true⟩ := by
  rw [on_message_eq_body cfg store msg _ h1 h2 h3 h4]
  rw [if_neg h5, if_neg h6, if_neg h7]
  show (match split_message (if responseText = [] then emptyResponseText else responseText) 2000 with
    | some chunks =>
      some (⟨(if newContextId = [] then store else ctxSet store msg.channelId newContextId),
        chunkSends chunks, true⟩ : DispatchResult)
    | none => none) = _
  rw [if_neg hne, hsp]

/-- C9: a reply text longer than the limit whose only newline or space within
the first `limit` characters sits at position 0 makes `split_message` emit an
empty-string chunk, and the dispatcher then sends that empty chunk (here as
the threaded reply). Concretely: a newline followed by 2000 letters. -/
theorem C9_empty_chunk_sent :
    split_message (('\n') :: List.replicate 2000 'a') 2000 =
      some [[], List.replicate 2000 'a'] ∧
    ([] : Text) ∈ [([] : Text), List.replicate 2000 'a'] ∧
    on_message defaultCfg [] ⟨false, false, ("42").data, ("hello").data⟩
      (BackendOutcome.success (('\n') :: List.replicate 2000 'a') (("ctx-1").data)) =
      some ⟨[(("42").data, ("ctx-1").data)],
        [Send.reply [], Send.channelSend (List.replicate 2000 'a')], true⟩ := by
  refine ⟨c9_split, List.mem_cons_self _ _, ?_⟩
  rw [on_message_success_eq defaultCfg [] ⟨false, false, ("42").data, ("hello").data⟩
    (('\n') :: List.replicate 2000 'a') (("ctx-1").data) [[], List.replicate 2000 'a']
    (by decide) (by decide) (by decide) (by decide) (by decide) (by decide) (by decide)
    (List.cons_ne_nil _ _) c9_split]
  rfl

/-- C10: handling a status command or a help command leaves the context store
unchanged (and performs no backend call); only a reply is sent. -/
theorem C10_status_help_keep_context (cfg : Config) (store : List (Text × Text))
    (msg : InMessage) (outcome : BackendOutcome)
    (h1 : msg.authorIsSelf = false) (h2 : msg.authorIsBot = false)
    (h3 : cfg.allowed = [] ∨ msg.channelId ∈ cfg.allowed)
    (hcmd : lowerText (stripText msg.content) = cfg.cmdPfx ++ ("status").data ∨
            lowerText (stripText msg.content) = cfg.cmdPfx ++ ("help").data) :
    ∃ sends, on_message cfg store msg outcome = some ⟨store, sends, false⟩ := by
  rcases hcmd with hc | hc
  · have h4 : stripText msg.content ≠ [] := cmd_text_ne_nil (by decide) hc
    have hnr : lowerText (stripText msg.content) ≠ cfg.cmdPfx ++ ("reset").data := by
      rw [hc]
      intro hh
      exact absurd (List.append_cancel_left hh) (by decide)
    refine ⟨[Send.reply (statusReplyText cfg ((ctxGet store msg.channelId).getD noContextText))], ?_⟩
    rw [on_message_eq_body cfg store msg outcome h1 h2 h3 h4]
    rw [if_neg hnr, if_pos hc]
  · have h4 : stripText msg.content ≠ [] := cmd_text_ne_nil (by decide) hc
    have hnr : lowerText (stripText msg.content) ≠ cfg.cmdPfx ++ ("reset").data := by
      rw [hc]
      intro hh
      exact absurd (List.append_cancel_left hh) (by decide)
    have hns : lowerText (stripText msg.content) ≠ cfg.cmdPfx ++ ("status").data := by
      rw [hc]
      intro hh
      exact absurd (List.append_cancel_left hh) (by decide)
    refine ⟨[Send.reply (helpReplyText cfg)], ?_⟩
    rw [on_message_eq_body cfg store msg outcome h1 h2 h3 h4]
    rw [if_neg hnr, if_neg hns, if_pos hc]

theorem C10_witness :
    ∃ sends, on_message defaultCfg [(("42").data, ("ctx-1").data)]
      ⟨false, false, ("42").data, ("!help").data⟩ BackendOutcome.timeout =
      some ⟨[(("42").data, ("ctx-1").data)], sends, false⟩ :=
  C10_status_help_keep_context defaultCfg [(("42").data, ("ctx-1").data)]
    ⟨false, false, ("42").data, ("!help").data⟩ BackendOutcome.timeout
    (by decide) (by decide) (by decide) (Or.inr (by decide))
